import Mathlib

/-!
Verification of the crypto-degen-bot opportunity scanner (src/agent.py).

The Python program is embedded shallowly: dictionaries become structures,
the string-tagged opportunity records become a sum type, the `requests`
response becomes an explicit structure, exceptions become `Option` (`none`
models an uncaught exception propagating out of the function), and the
wall clock `datetime.now(...)` becomes an explicit `now : Int` parameter
measured in epoch seconds.  Machine-independent Python integers are `Int`.
-/

set_option autoImplicit false

namespace CryptoDegenBot

/-! ### String helpers (Python `str` operations used by the source) -/

/-- Model of Python `str.lower` restricted to ASCII, which is all the source
ever feeds it (`Char.toLower` lowers exactly the ASCII uppercase letters). -/
def strLower (s : String) : String :=
  ⟨s.toList.map Char.toLower⟩

/-- Model of Python `str.replace(old, new)` for the one-character pattern the
source uses (`.replace('Z', '+00:00')`): every occurrence of `c` is replaced. -/
def replaceChar (s : String) (c : Char) (rep : String) : String :=
  ⟨s.toList.foldr (fun x acc => if x = c then rep.toList ++ acc else x :: acc) []⟩

/-- Does `needle` occur at the head of `hay`? -/
def charsStartWith : List Char → List Char → Bool
  | [], _ => true
  | _ :: _, [] => false
  | a :: as, b :: bs => a == b && charsStartWith as bs

/-- Does `needle` occur contiguously anywhere in `hay`? -/
def charsHasSub (needle : List Char) : List Char → Bool
  | [] => charsStartWith needle []
  | b :: bs => charsStartWith needle (b :: bs) || charsHasSub needle bs

/-- Model of Python `needle in hay` substring membership on strings. -/
def strIn (needle hay : String) : Bool :=
  charsHasSub needle.toList hay.toList

/-! ### Timestamps

The source parses `project['created']` with
`datetime.fromisoformat(created.replace('Z', '+00:00'))` and then computes
`(datetime.now(tz) - created_date).days`.  We model a `datetime` value as a
record of calendar fields plus an optional UTC offset, model `fromisoformat`
on the ISO-8601 profile the search API emits
(`YYYY-MM-DD[THH:MM:SS[±HH:MM]]`, with `' '` also accepted as separator),
with `none` modelling the `ValueError` Python raises on anything else, and
convert to epoch seconds with the standard proleptic-Gregorian civil-date
arithmetic so that `timedelta.days` becomes floor division by 86400. -/

structure DateTime where
  year : Nat
  month : Nat
  day : Nat
  hour : Nat
  minute : Nat
  second : Nat
  /-- UTC offset in minutes; `none` models a naive datetime. -/
  offsetMinutes : Option Int

deriving instance DecidableEq for DateTime

def digitVal (c : Char) : Option Nat :=
  if c.isDigit then some (c.toNat - 48) else none

/-- Read exactly `n` decimal digits, most significant first. -/
def readDigits : Nat → Nat → List Char → Option (Nat × List Char)
  | 0, acc, cs => some (acc, cs)
  | n + 1, acc, c :: cs =>
    match digitVal c with
    | some d => readDigits n (acc * 10 + d) cs
    | none => none
  | _ + 1, _, [] => none

def expectChar (c : Char) : List Char → Option (List Char)
  | x :: xs => if x = c then some xs else none
  | [] => none

def isLeap (y : Nat) : Bool :=
  (y % 4 == 0 && y % 100 != 0) || y % 400 == 0

def daysInMonth (y m : Nat) : Nat :=
  if m = 2 then (if isLeap y then 29 else 28)
  else if m = 4 || m = 6 || m = 9 || m = 11 then 30
  else 31

/-- Parse the optional `HH:MM:SS[±HH:MM]` tail of an ISO timestamp. -/
def parseTimePart (y mo d : Nat) (cs : List Char) : Option DateTime := do
  let (h, cs) ← readDigits 2 0 cs
  let cs ← expectChar ':' cs
  let (mi, cs) ← readDigits 2 0 cs
  let cs ← expectChar ':' cs
  let (sec, cs) ← readDigits 2 0 cs
  if 23 < h || 59 < mi || 59 < sec then none else
  match cs with
  | [] => some ⟨y, mo, d, h, mi, sec, none⟩
  | sign :: cs =>
    if sign = '+' || sign = '-' then do
      let (oh, cs) ← readDigits 2 0 cs
      let cs ← expectChar ':' cs
      let (om, cs) ← readDigits 2 0 cs
      if 23 < oh || 59 < om || !cs.isEmpty then none
      else
        let mins : Int := ((oh * 60 + om : Nat) : Int)
        some ⟨y, mo, d, h, mi, sec, some (if sign = '-' then -mins else mins)⟩
    else none

/-- Model of Python `datetime.fromisoformat` on the profile described above;
`none` models the `ValueError` raised on a malformed timestamp. -/
def fromisoformat (s : String) : Option DateTime := do
  let (y, cs) ← readDigits 4 0 s.toList
  let cs ← expectChar '-' cs
  let (mo, cs) ← readDigits 2 0 cs
  let cs ← expectChar '-' cs
  let (d, cs) ← readDigits 2 0 cs
  if y < 1 || mo < 1 || 12 < mo || d < 1 || daysInMonth y mo < d then none else
  match cs with
  | [] => some ⟨y, mo, d, 0, 0, 0, none⟩
  | sep :: cs => if sep = 'T' || sep = ' ' then parseTimePart y mo d cs else none

/-- Days since 1970-01-01 of a civil date (proleptic Gregorian calendar),
standard era/year-of-era arithmetic. -/
def daysFromCivil (y m d : Nat) : Int :=
  let y2 := if m ≤ 2 then y - 1 else y
  let era := y2 / 400
  let yoe := y2 % 400
  let mp := (m + 9) % 12
  let doy := (153 * mp + 2) / 5 + (d - 1)
  let doe := yoe * 365 + yoe / 4 - yoe / 100 + doy
  ((era * 146097 + doe : Nat) : Int) - 719468

/-- Epoch seconds of a parsed timestamp (UTC when an offset is present;
for a naive timestamp the caller's `now` lives in the same frame, matching
`datetime.now(created_date.tzinfo)` in the source). -/
def epochSeconds (dt : DateTime) : Int :=
  daysFromCivil dt.year dt.month dt.day * 86400
    + (dt.hour : Int) * 3600 + (dt.minute : Int) * 60 + (dt.second : Int)
    - 60 * dt.offsetMinutes.getD 0

/-! ### Data model -/

/-- The project dictionary built by `find_new_defi_projects`.  The builder
always writes every key, copying the API value verbatim, so `none` in
`description` or `language` models the Python value `None` (the API's
`null`) stored under a present key — not an absent key. -/
structure Project where
  name : String
  url : String
  description : Option String
  stars : Int
  language : Option String
  created : String

deriving instance DecidableEq for Project

/-- The string-tagged opportunity dictionaries of the source, as a sum type:
`'type': 'defi_gem' | 'yield_farm' | 'arbitrage'`. -/
inductive Opportunity where
  | defiGem (project : Project) (score : Int) (potential : String)
  | yieldFarm (protocol apy risk potential : String)
  | arbitrage (pair : String) (exchanges : List String) (profit_margin potential : String)

deriving instance DecidableEq for Opportunity

/-- A trading-signal dictionary from `generate_trading_signals`. -/
structure Signal where
  signal : String
  asset : String
  confidence : Int
  target : String
  timeframe : String

deriving instance DecidableEq for Signal

/-! ### The scorer (`analyze_defi_potential`) -/

def high_value_keywords : List String :=
  ["yield", "farming", "staking", "liquidity", "rewards", "apy"]

/-- The keyword term: `sum(10 for kw in high_value_keywords if kw in desc)`. -/
def keywordScore (desc : String) : Int :=
  high_value_keywords.foldl (fun acc kw => if strIn kw desc then acc + 10 else acc) 0

/-- The additive score of `analyze_defi_potential` once the creation
timestamp has parsed and the stored description value has been confirmed
to be an actual string `desc` (not None), accumulated exactly as the
source does. -/
def scoreFrom (now : Int) (created_date : DateTime) (desc : String)
    (project : Project) : Int :=
  let days_old : Int := (now - epochSeconds created_date).fdiv 86400
  let score : Int := if days_old < 30 then 0 + 25 else 0
  let score := score + min (project.stars * 2) 30
  let score := score + keywordScore (strLower desc)
  let score := if project.language = some "Solidity" then score + 15 else score
  min score 100

/-- Model of `CryptoDegenBot.analyze_defi_potential`.  `none` models an
uncaught exception: first the ValueError raised by
`datetime.fromisoformat` on a malformed creation timestamp, then the
AttributeError raised by `project.get('description', '').lower()` when the
stored description value is None — the key is always present, so the `''`
default never fires and `.lower()` is called on None itself. -/
def analyze_defi_potential (now : Int) (project : Project) : Option Int :=
  match fromisoformat (replaceChar project.created 'Z' "+00:00") with
  | none => none
  | some created_date =>
    match project.description with
    | none => none
    | some desc => some (scoreFrom now created_date desc project)

/-! ### Static generators, scan, signals, packaging -/

/-- Model of `find_yield_opportunities`: one fixed record. -/
def find_yield_opportunities : List Opportunity :=
  [Opportunity.yieldFarm "New DeFi Protocol" "150%+" "Medium" "$5000+ monthly yield"]

/-- Model of `find_arbitrage_opportunities`: one fixed record. -/
def find_arbitrage_opportunities : List Opportunity :=
  [Opportunity.arbitrage "ETH/USDC" ["Uniswap", "SushiSwap"] "2.5%" "$1000+ per trade"]

/-- The scoring loop of `scan_for_crypto_opportunities`: each project is
scored and kept as a `defi_gem` when its score exceeds 80; a scoring
exception (malformed timestamp) aborts the whole scan (`none`). -/
def scanGems (now : Int) : List Project → Option (List Opportunity)
  | [] => some []
  | p :: ps =>
    match analyze_defi_potential now p with
    | none => none
    | some score =>
      match scanGems now ps with
      | none => none
      | some rest =>
        if score > 80 then
          some (Opportunity.defiGem p score ("$" ++ toString (score * 1000) ++ "+ gain") :: rest)
        else
          some rest

/-- Model of `scan_for_crypto_opportunities` with the searched projects and
the clock as explicit inputs: score-filtered gems, then the static yield
record, then the static arbitrage record, in source order. -/
def scan_for_crypto_opportunities (now : Int) (projects : List Project) :
    Option (List Opportunity) :=
  match scanGems now projects with
  | none => none
  | some gems => some (gems ++ find_yield_opportunities ++ find_arbitrage_opportunities)

/-- Model of `generate_trading_signals`: the append loop over opportunities. -/
def generate_trading_signals : List Opportunity → List Signal
  | [] => []
  | Opportunity.defiGem project score _ :: rest =>
      { signal := "BUY"
        asset := project.name
        confidence := score
        target := toString (score * 2) ++ "% gain"
        timeframe := "1-4 weeks" } :: generate_trading_signals rest
  | Opportunity.yieldFarm _ _ _ _ :: rest => generate_trading_signals rest
  | Opportunity.arbitrage _ _ _ _ :: rest => generate_trading_signals rest

/-- The assembled package of `package_crypto_intelligence`. -/
structure IntelligencePackage where
  opportunities : List Opportunity
  signals : List Signal
  generated_at : String
  value_proposition : String
  pricing : List (String × String)
  target_market : String

/-- Model of `package_crypto_intelligence` (pure assembly; the printed count
is a side effect outside the embedding, `generated_at` is the clock input). -/
def package_crypto_intelligence (opportunities : List Opportunity)
    (signals : List Signal) (generated_at : String) : IntelligencePackage :=
  { opportunities := opportunities
    signals := signals
    generated_at := generated_at
    value_proposition := "Early DeFi gems and yield opportunities"
    pricing := [("basic_signals", "$99/month"),
                ("premium_intel", "$299/month"),
                ("vip_access", "$999/month")]
    target_market := "Crypto traders, DeFi investors, Yield farmers" }

/-! ### The repository search (`search_repos`) -/

/-- A repository object of the search API response, with the fields
`find_new_defi_projects` reads. -/
structure RawRepo where
  name : String
  html_url : String
  description : Option String
  stargazers_count : Int
  language : Option String
  created_at : String

deriving instance DecidableEq for RawRepo

/-- The HTTP response to a search query.  `items` is the value of the parsed
body's items key; `none` models the key being absent, matching the
defaulted `.get('items', [])` access. -/
structure SearchResponse where
  status_code : Int
  items : Option (List RawRepo)

deriving instance DecidableEq for SearchResponse

/-- Model of `search_repos` as a function of the response the network
returned: the items collection (defaulted to `[]`) on status 200, and the
empty list on any other status. -/
def search_repos (resp : SearchResponse) : List RawRepo :=
  if resp.status_code = 200 then resp.items.getD [] else []

/-! ### Concrete inputs used by the witness theorems -/

/-- A months-old Solidity repository with 7 stars and one keyword. -/
def projC1 : Project :=
  { name := "w", url := "u", description := some "a liquidity pool", stars := 7,
    language := some "Solidity", created := "2024-03-05T08:30:00Z" }

/-- The spec's example repository: two years old, 0 stars, description
None (the value `find_new_defi_projects` stores for a repo the API reports
with a null description), language Rust. -/
def projC2 : Project :=
  { name := "old", url := "u", description := none, stars := 0,
    language := some "Rust", created := "2023-10-12T00:00:00Z" }

/-- Epoch seconds of 2025-10-12T00:00:00Z, two years after `projC2`. -/
def nowC2 : Int := 1760227200

/-- A repository with an unparseable creation timestamp. -/
def projC8 : Project :=
  { name := "bad", url := "u", description := none, stars := 0,
    language := none, created := "not-a-date" }

/-- The spec's perfect-storm repository: all-keyword description, 50 stars,
Solidity, freshly created. -/
def projC9 : Project :=
  { name := "gem9", url := "u",
    description := some "New yield farming protocol with high APY staking rewards",
    stars := 50, language := some "Solidity", created := "2024-01-15T12:34:56Z" }

/-- The opportunity list a scan of `[projC9]` produces at its creation time. -/
def oppsC9 : List Opportunity :=
  [Opportunity.defiGem projC9 100 "$100000+ gain",
   Opportunity.yieldFarm "New DeFi Protocol" "150%+" "Medium" "$5000+ monthly yield",
   Opportunity.arbitrage "ETH/USDC" ["Uniswap", "SushiSwap"] "2.5%" "$1000+ per trade"]

/-- The signal generated from the `projC9` gem. -/
def sigC9 : Signal :=
  { signal := "BUY", asset := "gem9", confidence := 100,
    target := "200% gain", timeframe := "1-4 weeks" }

/-- The opportunity list of a scan over no projects: just the two statics. -/
def oppsC6 : List Opportunity :=
  find_yield_opportunities ++ find_arbitrage_opportunities

/-! ### Helper lemmas -/

/-- Folding the keyword bonus over any keyword list never decreases the
accumulator. -/
theorem keyword_foldl_le (desc : String) (l : List String) (acc : Int) :
    acc ≤ l.foldl (fun acc kw => if strIn kw desc then acc + 10 else acc) acc := by
  induction l generalizing acc with
  | nil => exact le_refl acc
  | cons kw rest ih =>
      refine le_trans ?_ (ih (if strIn kw desc then acc + 10 else acc))
      split <;> linarith

/-- The keyword term of the scorer is non-negative. -/
theorem keywordScore_nonneg (desc : String) : 0 ≤ keywordScore desc := by
  unfold keywordScore
  exact keyword_foldl_le desc high_value_keywords 0

/-- The clamped score never exceeds 100. -/
theorem scoreFrom_le_100 (now : Int) (dt : DateTime) (desc : String) (p : Project) :
    scoreFrom now dt desc p ≤ 100 := by
  simp only [scoreFrom]
  exact min_le_right _ _

/-- With a non-negative star count every additive term is non-negative, so
the clamped score is non-negative. -/
theorem scoreFrom_nonneg (now : Int) (dt : DateTime) (desc : String) (p : Project)
    (h : 0 ≤ p.stars) : 0 ≤ scoreFrom now dt desc p := by
  have hstar : (0 : Int) ≤ min (p.stars * 2) 30 := le_min (by linarith) (by norm_num)
  have hkw := keywordScore_nonneg (strLower desc)
  simp only [scoreFrom]
  refine le_min ?_ (by norm_num)
  split <;> split <;> linarith

/-- A successful score comes from a successful parse of the creation
timestamp and an actual (non-None) description string. -/
theorem analyze_eq_some (now : Int) (p : Project) (s : Int)
    (h : analyze_defi_potential now p = some s) :
    ∃ dt desc, fromisoformat (replaceChar p.created 'Z' "+00:00") = some dt ∧
      p.description = some desc ∧ s = scoreFrom now dt desc p := by
  unfold analyze_defi_potential at h
  cases hp : fromisoformat (replaceChar p.created 'Z' "+00:00") with
  | none => rw [hp] at h; cases h
  | some dt =>
      rw [hp] at h
      dsimp only at h
      cases hd : p.description with
      | none => rw [hd] at h; cases h
      | some desc =>
          rw [hd] at h
          exact ⟨dt, desc, rfl, rfl, (Option.some.inj h).symm⟩

/-- Any score the scorer actually returns is at most 100. -/
theorem analyze_le_100 (now : Int) (p : Project) (s : Int)
    (h : analyze_defi_potential now p = some s) : s ≤ 100 := by
  obtain ⟨dt, desc, -, -, hs⟩ := analyze_eq_some now p s h
  rw [hs]
  exact scoreFrom_le_100 now dt desc p

/-- Length of the gem list produced by the scan loop: one entry per project
whose score exceeds 80. -/
theorem scanGems_length (now : Int) (ps : List Project) (gems : List Opportunity)
    (h : scanGems now ps = some gems) :
    gems.length = ps.countP (fun p =>
      match analyze_defi_potential now p with
      | some s => decide (80 < s)
      | none => false) := by
  induction ps generalizing gems with
  | nil =>
      unfold scanGems at h
      injection h with h
      subst h
      rfl
  | cons p rest ih =>
      unfold scanGems at h
      cases ha : analyze_defi_potential now p with
      | none => rw [ha] at h; cases h
      | some s =>
          rw [ha] at h
          cases hg : scanGems now rest with
          | none => rw [hg] at h; cases h
          | some gs =>
              rw [hg] at h
              dsimp only at h
              rw [List.countP_cons]
              by_cases hs : s > 80
              · rw [if_pos hs] at h
                injection h with h
                subst h
                simp [ih gs hg, ha, hs]
              · rw [if_neg hs] at h
                injection h with h
                subst h
                simp [ih gs hg, ha, hs]

/-- Every gem the scan loop keeps carries a score above 80 that the scorer
actually returned for its project. -/
theorem scanGems_gem_score (now : Int) (ps : List Project) (gems : List Opportunity)
    (h : scanGems now ps = some gems) (p : Project) (s : Int) (pot : String)
    (hm : Opportunity.defiGem p s pot ∈ gems) : 80 < s ∧ s ≤ 100 := by
  induction ps generalizing gems with
  | nil =>
      unfold scanGems at h
      injection h with h
      subst h
      cases hm
  | cons q rest ih =>
      unfold scanGems at h
      cases ha : analyze_defi_potential now q with
      | none => rw [ha] at h; cases h
      | some sq =>
          rw [ha] at h
          cases hg : scanGems now rest with
          | none => rw [hg] at h; cases h
          | some gs =>
              rw [hg] at h
              dsimp only at h
              by_cases hs : sq > 80
              · rw [if_pos hs] at h
                injection h with h
                subst h
                rcases List.mem_cons.mp hm with heq | hmem
                · obtain ⟨-, hseq, -⟩ := Opportunity.defiGem.inj heq
                  subst hseq
                  exact ⟨hs, analyze_le_100 now q s ha⟩
                · exact ih gs hg hmem
              · rw [if_neg hs] at h
                injection h with h
                subst h
                exact ih gs hg hm

/-- Every signal generated from a list whose gems all have scores in
(80, 100] has its confidence in (80, 100]. -/
theorem generate_confidence (opps : List Opportunity)
    (hok : ∀ p s pot, Opportunity.defiGem p s pot ∈ opps → 80 < s ∧ s ≤ 100) :
    ∀ sig ∈ generate_trading_signals opps,
      80 < sig.confidence ∧ sig.confidence ≤ 100 := by
  induction opps with
  | nil => intro sig hs; cases hs
  | cons opp rest ih =>
      intro sig hs
      have hrest : ∀ p s pot, Opportunity.defiGem p s pot ∈ rest → 80 < s ∧ s ≤ 100 :=
        fun p s pot hm => hok p s pot (List.mem_cons_of_mem _ hm)
      cases opp with
      | defiGem p s pot =>
          rw [generate_trading_signals] at hs
          rcases List.mem_cons.mp hs with heq | hmem
          · subst heq
            exact hok p s pot (List.mem_cons_self _ _)
          · exact ih hrest sig hmem
      | yieldFarm a b c d =>
          rw [generate_trading_signals] at hs
          exact ih hrest sig hs
      | arbitrage a b c d =>
          rw [generate_trading_signals] at hs
          exact ih hrest sig hs

/-! ### The claims -/

/-- C1: for every RepositoryRecord with a non-negative star count and a
parseable creation timestamp, the score returned by
`analyze_defi_potential` satisfies 0 ≤ score ≤ 100. -/
theorem C1_score_bounded (now : Int) (p : Project) (score : Int)
    (hstars : 0 ≤ p.stars)
    (h : analyze_defi_potential now p = some score) :
    0 ≤ score ∧ score ≤ 100 := by
  obtain ⟨dt, desc, -, -, hs⟩ := analyze_eq_some now p score h
  rw [hs]
  exact ⟨scoreFrom_nonneg now dt desc p hstars, scoreFrom_le_100 now dt desc p⟩

/-- Witness for C1: the scorer on a concrete months-old 7-star repository
returns 39, which the theorem bounds into [0, 100]. -/
theorem C1_score_bounded_witness : (0 : Int) ≤ 39 ∧ (39 : Int) ≤ 100 :=
  C1_score_bounded 1760227200 projC1 39 (by decide) (by decide)

/-- C2: the claim says a missing description is treated as the empty
string and that the two-year-old 0-star Rust record scores exactly 0.
On the code this fails: `find_new_defi_projects` always stores the
description key, copying the API's null as None, so the scorer's
`.get('description', '')` default never fires and `.lower()` raises
AttributeError on None — the scorer crashes on that record instead of
scoring it.  The first conjunct evaluates the model at the failing input
(the modeled exception); the second shows the intended empty-string
treatment would indeed score 0. -/
theorem C2_missing_description_crash :
    analyze_defi_potential nowC2 projC2 = none ∧
      analyze_defi_potential nowC2 { projC2 with description := some "" } = some 0 := by
  decide

/-- C3: a repository less than 30 days old at scoring time with 50 stars,
the all-keyword description and language Solidity scores exactly 100
(raw 25 + 30 + 50 + 15 = 120, clamped). -/
theorem C3_perfect_score (now : Int) (name url created : String) (dt : DateTime)
    (hparse : fromisoformat (replaceChar created 'Z' "+00:00") = some dt)
    (hage : (now - epochSeconds dt).fdiv 86400 < 30) :
    analyze_defi_potential now
      { name := name, url := url,
        description := some "New yield farming protocol with high APY staking rewards",
        stars := 50, language := some "Solidity", created := created } = some 100 := by
  unfold analyze_defi_potential
  dsimp only
  rw [hparse]
  dsimp only
  unfold scoreFrom
  dsimp only
  rw [if_pos hage]
  decide

/-- Witness for C3: the concrete all-keyword repository scored at its own
creation instant. -/
theorem C3_perfect_score_witness :
    analyze_defi_potential 1705322096
      { name := "gem", url := "u",
        description := some "New yield farming protocol with high APY staking rewards",
        stars := 50, language := some "Solidity",
        created := "2024-01-15T12:34:56Z" } = some 100 :=
  C3_perfect_score 1705322096 "gem" "u" "2024-01-15T12:34:56Z"
    ⟨2024, 1, 15, 12, 34, 56, some 0⟩ (by decide) (by decide)

/-- C4: the Signal Generator emits exactly one BUY signal per defi_gem
opportunity (and none for the other kinds), with asset the project's name,
confidence the stored score, target the string score*2 ++ "% gain" and
timeframe "1-4 weeks", preserving input order. -/
theorem C4_signal_generation (opps : List Opportunity) :
    generate_trading_signals opps = opps.filterMap (fun opp =>
      match opp with
      | Opportunity.defiGem project score _ =>
          some { signal := "BUY", asset := project.name, confidence := score,
                 target := toString (score * 2) ++ "% gain",
                 timeframe := "1-4 weeks" }
      | Opportunity.yieldFarm _ _ _ _ => none
      | Opportunity.arbitrage _ _ _ _ => none) := by
  induction opps with
  | nil => rfl
  | cons opp rest ih =>
      cases opp <;> simp [generate_trading_signals, List.filterMap_cons, ih]

/-- C5: `search_repos` returns the empty list on every non-200 response
(no error propagates) and returns the body's items on a 200 response. -/
theorem C5_search_non200 (resp : SearchResponse) :
    (resp.status_code ≠ 200 → search_repos resp = []) ∧
      (∀ its, resp.items = some its → resp.status_code = 200 →
        search_repos resp = its) := by
  constructor
  · intro h
    unfold search_repos
    rw [if_neg h]
  · intro its hi h
    unfold search_repos
    rw [if_pos h, hi]
    rfl

/-- Witness for C5: a 403 response carrying items still yields the empty
list. -/
theorem C5_search_non200_witness :
    search_repos
      { status_code := 403,
        items := some [{ name := "r", html_url := "h", description := none,
                         stargazers_count := 1, language := none,
                         created_at := "2024-01-01T00:00:00Z" }] } = [] :=
  (C5_search_non200 _).1 (by decide)

/-- C6: when the scan completes, the opportunity list handed to the
Packager has length (number of projects scoring strictly above 80) + 1
static yield record + 1 static arbitrage record. -/
theorem C6_opportunity_count (now : Int) (projects : List Project)
    (opps : List Opportunity) (generated_at : String)
    (h : scan_for_crypto_opportunities now projects = some opps) :
    (package_crypto_intelligence opps (generate_trading_signals opps)
        generated_at).opportunities.length
      = projects.countP (fun p =>
          match analyze_defi_potential now p with
          | some s => decide (80 < s)
          | none => false) + 2 := by
  unfold scan_for_crypto_opportunities at h
  cases hg : scanGems now projects with
  | none => rw [hg] at h; cases h
  | some gems =>
      rw [hg] at h
      injection h with h
      subst h
      have hlen := scanGems_length now projects gems hg
      simp [package_crypto_intelligence, find_yield_opportunities,
        find_arbitrage_opportunities, hlen]

/-- Witness for C6: scanning no projects yields exactly the two static
records. -/
theorem C6_opportunity_count_witness :
    (package_crypto_intelligence oppsC6 (generate_trading_signals oppsC6)
        "2024-01-01T00:00:00").opportunities.length
      = ([] : List Project).countP (fun p =>
          match analyze_defi_potential 0 p with
          | some s => decide (80 < s)
          | none => false) + 2 :=
  C6_opportunity_count 0 [] oppsC6 "2024-01-01T00:00:00" (by decide)

/-- C7: scoring is deterministic; two runs of the scorer on the same record
with the same clock return equal results. -/
theorem C7_deterministic (now : Int) (p : Project) (r1 r2 : Option Int)
    (h1 : analyze_defi_potential now p = r1)
    (h2 : analyze_defi_potential now p = r2) : r1 = r2 :=
  h1.symm.trans h2

/-- Witness for C7: two concrete runs on `projC1` both return 39. -/
theorem C7_deterministic_witness : (some 39 : Option Int) = some 39 :=
  C7_deterministic 1760227200 projC1 (some 39) (some 39) (by decide) (by decide)

/-- C8: a malformed creation timestamp makes the scorer fail (the modeled
unhandled exception) instead of returning a score. -/
theorem C8_malformed_timestamp (now : Int) (p : Project)
    (h : fromisoformat (replaceChar p.created 'Z' "+00:00") = none) :
    analyze_defi_potential now p = none := by
  unfold analyze_defi_potential
  rw [h]

/-- Witness for C8: the record whose timestamp is the unparseable string
fails to score. -/
theorem C8_malformed_timestamp_witness :
    analyze_defi_potential 0 projC8 = none :=
  C8_malformed_timestamp 0 projC8 (by decide)

/-- C9: every signal a completed scan emits has confidence strictly above
80 and at most 100. -/
theorem C9_signal_confidence (now : Int) (projects : List Project)
    (opps : List Opportunity)
    (h : scan_for_crypto_opportunities now projects = some opps) :
    ∀ sig ∈ generate_trading_signals opps,
      80 < sig.confidence ∧ sig.confidence ≤ 100 := by
  unfold scan_for_crypto_opportunities at h
  cases hg : scanGems now projects with
  | none => rw [hg] at h; cases h
  | some gems =>
      rw [hg] at h
      injection h with h
      subst h
      refine generate_confidence _ ?_
      intro p s pot hm
      rcases List.mem_append.mp hm with hm2 | hst
      · rcases List.mem_append.mp hm2 with hgem | hst
        · exact scanGems_gem_score now projects gems hg p s pot hgem
        · simp [find_yield_opportunities] at hst
      · simp [find_arbitrage_opportunities] at hst

/-- Witness for C9: a scan of the all-keyword repository emits the single
signal `sigC9` with confidence 100. -/
theorem C9_signal_confidence_witness :
    80 < sigC9.confidence ∧ sigC9.confidence ≤ 100 :=
  C9_signal_confidence 1705322096 [projC9] oppsC9 (by decide) sigC9 (by decide)

/-- C10: a 200 response whose body has no items key yields the empty list
rather than a failure, because the lookup is a defaulted get. -/
theorem C10_missing_items (resp : SearchResponse)
    (h200 : resp.status_code = 200) (hitems : resp.items = none) :
    search_repos resp = [] := by
  unfold search_repos
  rw [if_pos h200, hitems]
  rfl

/-- Witness for C10: the 200 response with an absent items key. -/
theorem C10_missing_items_witness :
    search_repos { status_code := 200, items := none } = [] :=
  C10_missing_items { status_code := 200, items := none } rfl rfl

end CryptoDegenBot
